import Mathlib

/-!
Shallow embedding of the Xcode project tree provider
(`src/utils/xcode-node-provider.ts` of josa42/vscode-xcode-project) and proofs
about its node-resolution, path-computation and sorting behaviour.

The embedding follows the build-file-aware variant of the provider: the node
classes `RootNode`, `ProjectNode`, `GroupNode`, `FileNode`, `BuildFileNode`
and the provider method `resolveChildren` with the `sortAlphabetically` /
`directoriesFirst` configuration.  External collaborators (Node.js `fs`,
`path`, the `xcode-proj` parser, `String.prototype.localeCompare`) are
modelled by small explicit functions, each documented at its definition.
-/

namespace XcodeProject

/-- An entry of a PBX group's `children` array: the parser yields objects of
the shape `{ value, comment }` where `value` is the opaque identifier of the
referenced record and `comment` its human-readable name. -/
structure ChildRef where
  value : String
  comment : String
deriving DecidableEq

/-- A PBX group record as returned by `getPBXGroupByKey`: a list of child
references and an optional relative path segment (`path` is absent for
"virtual" groups; `none` models the absent / `undefined` field). -/
structure GroupRecord where
  children : List ChildRef
  path : Option String
deriving DecidableEq

/-- A PBX file-reference record from `pbxFileReferenceSection()`:
a (possibly quoted) relative path and a comment. -/
structure FileRecord where
  path : String
  comment : String
deriving DecidableEq

/-- A PBX build-file record from `pbxBuildFileSection()`: the identifier of
the wrapped file reference and the parser-synthesized `fileRef_comment`. -/
structure BuildFileRecord where
  fileRef : String
  fileRef_comment : String
deriving DecidableEq

/-- The parsed project model handle (`proj` in the source), restricted to the
three section accessors the node classes use.  JavaScript objects preserve
key insertion order, so each section is an ordered association list; `lookup`
mirrors bracket indexing `section[key]` and the list order mirrors
`Object.keys` order. -/
structure ProjectModel where
  groups : List (String × GroupRecord)
  fileRefs : List (String × FileRecord)
  buildFiles : List (String × BuildFileRecord)
deriving DecidableEq

/-- Model of `proj.getPBXGroupByKey(key)`: `undefined` (here `none`) when
the key is not a group identifier. -/
def ProjectModel.getPBXGroupByKey (m : ProjectModel) (key : String) : Option GroupRecord :=
  m.groups.lookup key

/-- Model of `proj.pbxFileReferenceSection()[key]`. -/
def ProjectModel.fileRef (m : ProjectModel) (key : String) : Option FileRecord :=
  m.fileRefs.lookup key

/-- The node tree.  Each non-root node stores its parent (the `parent`
back-reference of the source classes) and, below `ProjectNode`, the shared
parsed model handle (`project` in the source). -/
inductive XNode where
  | root (rootPath : String)
  | project (file : String) (parent : XNode)
  | group (model : ProjectModel) (data : ChildRef) (parent : XNode)
  | file (model : ProjectModel) (data : ChildRef) (parent : XNode)
  | buildFile (model : ProjectModel) (data : BuildFileRecord) (parent : XNode)
deriving DecidableEq

/-- The static `hasChildren` field of each node class. -/
def hasChildren : XNode → Bool
  | .root _ => true
  | .project _ _ => true
  | .group _ _ _ => true
  | .file _ _ _ => false
  | .buildFile _ _ _ => false

/-- The `clickCommand` field: `FileNode` carries the open-file command, every
other class leaves it `null`/absent (here `none`). -/
def clickCommand : XNode → Option String
  | .file _ _ _ => some "extension.openXcodeFileNode"
  | _ => none

/-- The `label()` method of each node class. -/
def label : XNode → String
  | .root _ => "Xcode"
  | .project f _ => f
  | .group _ d _ => d.comment
  | .file _ d _ => d.comment
  | .buildFile _ d _ => d.fileRef_comment

/-- Model of Node.js `path.join(a, b)` on already-normalized segments:
concatenation with a `/` separator (the source never feeds `..`, duplicate
separators or trailing slashes into the join). -/
def pathJoin (a b : String) : String :=
  if a = "" then b else if b = "" then a else a ++ "/" ++ b

/-- The double-quote character (code point 34). -/
def quoteChar : Char := Char.ofNat 34

/-- Model of `ref.path.replace(/(^"|"$)/g, '')` in `FileNode.path()`: one leading and
one trailing double-quote character are removed when present.  Scanning the
regex left to right removes the leading quote first, so the sequential
strip below (expressed on the character list of the string) agrees with the
regex on every input (including the one-character quote-only string). -/
def stripQuotes (s : String) : String :=
  let cs1 := if s.data.head? = some quoteChar then s.data.tail else s.data
  ⟨if cs1.getLast? = some quoteChar then cs1.dropLast else cs1⟩

/-- The `path()` methods, by structural recursion on the parent chain.
`none` models a thrown `TypeError` (indexing a section with an unknown key
yields `undefined` and reading `.path`/`.children` of it throws):
* `RootNode.path()` returns the stored `rootPath`;
* `ProjectNode.path()` is `path.join(this.parent.path())` — a one-argument
  join only normalizes, so it is the parent's path;
* `GroupNode.path()` joins the parent path with the group record's `path`
  field when that field is truthy (present and non-empty), else passes the
  parent path through;
* `FileNode.path()` joins the parent path with the quote-stripped `path` of
  the looked-up file-reference record;
* `BuildFileNode.path()` joins the parent path with the record's
  `fileRef_comment` (no quote stripping). -/
def path : XNode → Option String
  | .root p => some p
  | .project _ parent => path parent
  | .group m d parent => do
      let parentPath ← path parent
      let g ← m.getPBXGroupByKey d.value
      pure (match g.path with
            | none => parentPath
            | some s => if s = "" then parentPath else pathJoin parentPath s)
  | .file m d parent => do
      let ref ← m.fileRef d.value
      let parentPath ← path parent
      pure (pathJoin parentPath (stripQuotes ref.path))
  | .buildFile _ d parent => do
      let parentPath ← path parent
      pure (pathJoin parentPath d.fileRef_comment)

/-- The body of the arrow function inside `GroupNode.children()`: one child
reference is resolved by trying, in order, the group section, the
file-reference section, and a `fileRef`-match scan over the build-file
section (`bfileKeys.find((key) => bfileSec[key].fileRef === value)`); a miss
everywhere returns `undefined` (here `none`, the warned-and-dropped case). -/
def resolveChild (m : ProjectModel) (self : XNode) (c : ChildRef) : Option XNode :=
  if (m.getPBXGroupByKey c.value).isSome then
    some (.group m c self)
  else if (m.fileRef c.value).isSome then
    some (.file m c self)
  else
    match m.buildFiles.find? (fun kv => kv.2.fileRef == c.value) with
    | some kv => some (.buildFile m kv.2 self)
    | none => none

/-- Body of `GroupNode.children()` after the trailing `.filter((node) => node)`:
unresolvable references are dropped. -/
def groupChildNodes (m : ProjectModel) (self : XNode) (cs : List ChildRef) : List XNode :=
  cs.filterMap (resolveChild m self)

/-- The child references for which `GroupNode.children()` hits the
`console.warn` branch (no node produced). -/
def groupChildWarnings (m : ProjectModel) (self : XNode) (cs : List ChildRef) : List ChildRef :=
  cs.filter (fun c => (resolveChild m self c).isNone)

/-- Resolution of `GroupNode.children()` for the node `.group m d parent`: looks up the own
group record (`this.group()`) and resolves its child list; `none` models the
rejection when the record is missing. -/
def groupChildren (m : ProjectModel) (d : ChildRef) (parent : XNode) : Option (List XNode) :=
  (m.getPBXGroupByKey d.value).map fun g =>
    groupChildNodes m (XNode.group m d parent) g.children

/-- Error thrown by `fs.readdirSync` on an unreadable directory. -/
inductive FsError where
  | unreadable
deriving DecidableEq

/-- Error thrown by `proj.parseSync()` on a missing or malformed pbxproj file. -/
inductive ParseError where
  | malformed
deriving DecidableEq

/-- The test `file.match(/\.xcodeproj$/)` of `RootNode.children()`: the
regex has no `m` flag, so `$` anchors at the very end of the string and the
match succeeds exactly when the name ends with `.xcodeproj`. -/
def matchesXcodeproj (f : String) : Bool :=
  ".xcodeproj".data.isSuffixOf f.data

/-- Model of `RootNode.children()`: list the root directory, keep entries matching
`/\.xcodeproj$/`, and wrap each in a `ProjectNode`.  The call to
`fs.readdirSync` is NOT wrapped in a try/catch, so a directory-read error
propagates to the caller unchanged — modelled by `Except.map` over the
directory-listing result. -/
def rootChildren (rootPath : String) (readdir : Except FsError (List String)) :
    Except FsError (List XNode) :=
  readdir.map fun entries =>
    (entries.filter matchesXcodeproj).map
      (fun f => XNode.project f (.root rootPath))

/-- What `ProjectNode.children()` consumes from the parser: the model, the
designated root object identifier (`proj.hash.project.rootObject`) and the
project section (`pbxProjectSection()`), each project entry mapped to its
`mainGroup` identifier. -/
structure ParsedProject where
  model : ProjectModel
  rootObject : String
  projSection : List (String × String)
deriving DecidableEq

/-- Model of `ProjectNode.children()`: parse the pbxproj file, locate the root
object's main group and wrap each of its child references in a `GroupNode`
whose parent is this project node.  A `parseSync` throw inside the Promise
executor rejects the promise — the `ParseError` is not caught, modelled by
`Except.map` over the parse result.  The inner `Option` models the
`TypeError` rejection when the root object or main group is missing. -/
def projectChildren (parse : Except ParseError ParsedProject) (self : XNode) :
    Except ParseError (Option (List XNode)) :=
  parse.map fun p =>
    (p.projSection.lookup p.rootObject).bind fun mainGroup =>
      (p.model.getPBXGroupByKey mainGroup).bind fun g =>
        some (g.children.map fun c => XNode.group p.model c self)

/-- The two configuration flags read from `workspace.getConfiguration()`:
`xcodeProject.sortAlphabetically` and `xcodeProject.directoriesFirst`. -/
structure Config where
  sortAlphabetically : Bool
  directoriesFirst : Bool
deriving DecidableEq

/-- The method `sortKey()`: the base class returns `` `001-${label}` ``; `GroupNode`
overrides the bucket to `000` when `directoriesFirst` is set. -/
def sortKey (cfg : Config) (n : XNode) : String :=
  match n with
  | .group _ _ _ => (if cfg.directoriesFirst then "000" else "001") ++ "-" ++ label n
  | _ => "001" ++ "-" ++ label n

/-- Lexicographic code-point comparison of two strings given as character
lists: the Boolean counterpart of "not greater". -/
def charLE : List Char → List Char → Bool
  | [], _ => true
  | _ :: _, [] => false
  | a :: as, b :: bs =>
    if a < b then true else if b < a then false else charLE as bs

/-- The comparator `(a, b) => a.sortKey().localeCompare(b.sortKey())` as a
Boolean "less or equal".  `localeCompare` is modelled as code-point string
comparison (its exact collation is locale-dependent; on the keys used here —
a three-digit bucket, a dash, a label — code-point order is the reference
behaviour). -/
def keyLE (cfg : Config) (a b : XNode) : Bool :=
  charLE (sortKey cfg a).data (sortKey cfg b).data

/-- Model of `XcodeNodeProvider.resolveChildren`: the resolved children are sorted by
the comparator when `sortAlphabetically` is enabled, and returned unchanged
otherwise.  JavaScript `Array.prototype.sort` is a stable sort (ES2019),
modelled by `List.mergeSort`. -/
def resolveChildren (cfg : Config) (ns : List XNode) : List XNode :=
  if cfg.sortAlphabetically then ns.mergeSort (keyLE cfg) else ns

/-- Is the node a `GroupNode`? -/
def isGroupNode : XNode → Bool
  | .group _ _ _ => true
  | _ => false

/-- Is the node a `FileNode`? -/
def isFileNode : XNode → Bool
  | .file _ _ _ => true
  | _ => false

/-! ### Concrete fixtures used by the witnesses and counterexamples -/

/-- A quoted file-reference record, as in the spec's round-trip example. -/
def mainSwiftRef : FileRecord := ⟨"\"Sources/main.swift\"", "main.swift"⟩

/-- An unquoted file-reference record. -/
def plistRef : FileRecord := ⟨"Info.plist", "Info.plist"⟩

/-- A build-file record whose `fileRef` points at the `F1` file reference. -/
def bfRecW : BuildFileRecord := ⟨"F1", "main.swift in Sources"⟩

/-- A group with an on-disk path segment. -/
def sourcesGroup : GroupRecord := ⟨[⟨"F1", "main.swift"⟩], some "Sources"⟩

/-- A virtual group (absent `path` field). -/
def virtualGroup : GroupRecord := ⟨[⟨"F2", "Info.plist"⟩], none⟩

/-- A group with an empty-string `path` field. -/
def emptyPathGroup : GroupRecord := ⟨[], some ""⟩

/-- The fixture project model.  Identifier `F1` occurs both as a
file-reference key and as the `fileRef` of build-file `B1`. -/
def modelW : ProjectModel :=
  ⟨[("G1", sourcesGroup), ("G2", virtualGroup), ("G3", emptyPathGroup)],
   [("F1", mainSwiftRef), ("F2", plistRef)],
   [("B1", bfRecW)]⟩

/-! ### Properties of the comparator -/

/-- The comparator is reflexive. -/
theorem charLE_refl : ∀ (l : List Char), charLE l l = true
  | [] => rfl
  | a :: as => by simp [charLE, lt_irrefl, charLE_refl as]

/-- The comparator is total. -/
theorem charLE_total : ∀ (l m : List Char), charLE l m = true ∨ charLE m l = true
  | [], _ => Or.inl rfl
  | _ :: _, [] => Or.inr rfl
  | a :: as, b :: bs => by
    by_cases hab : a < b
    · exact Or.inl (by simp [charLE, hab])
    · by_cases hba : b < a
      · exact Or.inr (by simp [charLE, hba])
      · have heq : a = b := le_antisymm (not_lt.mp hba) (not_lt.mp hab)
        subst heq
        rcases charLE_total as bs with h | h
        · exact Or.inl (by simp [charLE, hab, h])
        · exact Or.inr (by simp [charLE, hab, h])

/-- The comparator is transitive. -/
theorem charLE_trans : ∀ (l m k : List Char),
    charLE l m = true → charLE m k = true → charLE l k = true
  | [], _, _, _, _ => rfl
  | _ :: _, [], _, h, _ => by simp [charLE] at h
  | _ :: _, _ :: _, [], _, h' => by simp [charLE] at h'
  | a :: as, b :: bs, c :: cs, h, h' => by
    by_cases hab : a < b
    · by_cases hbc : b < c
      · simp [charLE, lt_trans hab hbc]
      · by_cases hcb : c < b
        · simp [charLE, hbc, hcb] at h'
        · have heq : b = c := le_antisymm (not_lt.mp hcb) (not_lt.mp hbc)
          subst heq
          simp [charLE, hab]
    · by_cases hba : b < a
      · simp [charLE, hab, hba] at h
      · have heq : a = b := le_antisymm (not_lt.mp hba) (not_lt.mp hab)
        subst heq
        by_cases hac : a < c
        · simp [charLE, hac]
        · by_cases hca : c < a
          · simp [charLE, hac, hca] at h'
          · have heq' : a = c := le_antisymm (not_lt.mp hca) (not_lt.mp hac)
            subst heq'
            simp only [charLE, if_neg hab] at h h' ⊢
            exact charLE_trans as bs cs h h'

/-- Comparing two lists with a common prefix compares the remainders. -/
theorem charLE_append_cancel : ∀ (p s t : List Char),
    charLE (p ++ s) (p ++ t) = charLE s t
  | [], _, _ => rfl
  | c :: p, s, t => by
    simp only [List.cons_append, charLE, if_neg (lt_irrefl c)]
    exact charLE_append_cancel p s t

/-- A key in the `001` bucket never compares at-most a key in the `000`
bucket. -/
theorem charLE_bucket (s t : List Char) :
    charLE ('0' :: '0' :: '1' :: s) ('0' :: '0' :: '0' :: t) = false := by
  have h00 : ¬ ('0' : Char) < '0' := by decide
  have h10 : ¬ ('1' : Char) < '0' := by decide
  have h01 : ('0' : Char) < '1' := by decide
  simp [charLE, h00, h10, h01]

/-- The sort key of a non-group node is its label in the `001` bucket. -/
theorem sortKey_data_of_not_group (cfg : Config) (n : XNode) (h : isGroupNode n = false) :
    (sortKey cfg n).data = '0' :: '0' :: '1' :: '-' :: (label n).data := by
  cases n <;> first | rfl | simp [isGroupNode] at h

/-- With `directoriesFirst` enabled, the sort key of a group node is its
label in the `000` bucket. -/
theorem sortKey_data_of_group (cfg : Config) (hd : cfg.directoriesFirst = true)
    (n : XNode) (h : isGroupNode n = true) :
    (sortKey cfg n).data = '0' :: '0' :: '0' :: '-' :: (label n).data := by
  cases n <;> simp [isGroupNode] at h ⊢
  case group m d p =>
    show ((if cfg.directoriesFirst then "000" else "001") ++ "-" ++ label (XNode.group m d p)).data = _
    rw [hd]
    rfl

/-- A `FileNode` is not a `GroupNode`. -/
theorem isGroupNode_eq_false_of_isFileNode (n : XNode) (h : isFileNode n = true) :
    isGroupNode n = false := by
  cases n <;> first | rfl | simp [isFileNode] at h

/-! ### The claims -/

/-- C1: in `GroupNode.children()` each child identifier is resolved in the
fixed order group-lookup, file-reference lookup, build-file `fileRef` scan;
an identifier matching a file-reference record (and no group) yields a
`FileNode` irrespective of the build-file section — File resolution takes
precedence over BuildFile resolution — and each identifier contributes at
most one node to the resolved child list. -/
theorem claim_C1 (m : ProjectModel) (self : XNode) (c : ChildRef) :
    ((m.getPBXGroupByKey c.value).isSome →
      resolveChild m self c = some (.group m c self)) ∧
    (m.getPBXGroupByKey c.value = none → (m.fileRef c.value).isSome →
      resolveChild m self c = some (.file m c self)) ∧
    (m.getPBXGroupByKey c.value = none → m.fileRef c.value = none →
      resolveChild m self c =
        (m.buildFiles.find? (fun kv => kv.2.fileRef == c.value)).map
          (fun kv => XNode.buildFile m kv.2 self)) ∧
    (∀ cs : List ChildRef, (groupChildNodes m self cs).length ≤ cs.length) := by
  refine ⟨?_, ?_, ?_, ?_⟩
  · intro h
    simp [resolveChild, h]
  · intro h h'
    simp [resolveChild, h, h']
  · intro h h'
    simp only [resolveChild, h, h', Option.isSome_none, Bool.false_eq_true, if_false]
    cases m.buildFiles.find? (fun kv => kv.2.fileRef == c.value) <;> rfl
  · intro cs
    exact List.length_filterMap_le _ _

/-- C1 witness: in the fixture model the identifier `F1` is both a
file-reference key and the `fileRef` of build-file `B1`; it resolves to a
`FileNode`. -/
theorem claim_C1_witness :
    resolveChild modelW (.root "/ws") ⟨"F1", "main.swift"⟩ =
      some (.file modelW ⟨"F1", "main.swift"⟩ (.root "/ws")) ∧
    (modelW.buildFiles.find? (fun kv => kv.2.fileRef == "F1")).isSome = true := by
  refine ⟨(claim_C1 modelW (.root "/ws") ⟨"F1", "main.swift"⟩).2.1 (by decide) (by decide), by decide⟩

/-- C2 is false of the code: `RootNode.children()` calls `fs.readdirSync`
with no try/catch, so an unreadable root directory makes the call throw (the
error is not downgraded to an empty list), and a parse failure inside
`ProjectNode.children()` rejects the returned promise rather than resolving
it with an empty list. -/
theorem claim_C2_counterexample :
    rootChildren "/ws" (Except.error FsError.unreadable) ≠ Except.ok [] ∧
    projectChildren (Except.error ParseError.malformed) (.root "/ws") ≠
      Except.ok (some []) := by
  constructor <;> exact fun h => Except.noConfusion h

/-- C2 amended: a `FilesystemError` from the directory listing propagates
out of `RootNode.children()` unchanged, and a `ParseError` from
`proj.parseSync()` propagates as a rejection of `ProjectNode.children()`;
neither is caught, logged, or downgraded to an empty child list. -/
theorem claim_C2_amended (rootPath : String) (e : FsError) (e' : ParseError) (self : XNode) :
    rootChildren rootPath (Except.error e) = Except.error e ∧
    projectChildren (Except.error e') self = Except.error e' :=
  ⟨rfl, rfl⟩

/-- C4: `FileNode.path()` is the parent's path joined with the
file-reference record's `path` field after stripping one layer of
surrounding double quotes. -/
theorem claim_C4 (m : ProjectModel) (d : ChildRef) (parent : XNode)
    (ref : FileRecord) (dir : String)
    (href : m.fileRef d.value = some ref) (hp : path parent = some dir) :
    path (XNode.file m d parent) = some (pathJoin dir (stripQuotes ref.path)) := by
  simp [path, href, hp]

/-- C4 witness: the spec's round-trip example — record path
`"Sources/main.swift"` (with quotes) under parent path `/repo/App` yields
`/repo/App/Sources/main.swift`. -/
theorem claim_C4_witness :
    path (XNode.file modelW ⟨"F1", "main.swift"⟩ (.root "/repo/App")) =
      some "/repo/App/Sources/main.swift" := by
  have h := claim_C4 modelW ⟨"F1", "main.swift"⟩ (.root "/repo/App")
    mainSwiftRef "/repo/App" (by decide) rfl
  rw [h]
  decide

/-- C5: `GroupNode.path()` joins the parent's path with the group record's
`path` field when that field is present and non-empty, and passes the
parent's path through unchanged when the field is absent or empty. -/
theorem claim_C5 (m : ProjectModel) (d : ChildRef) (parent : XNode)
    (g : GroupRecord) (dir : String)
    (hg : m.getPBXGroupByKey d.value = some g) (hp : path parent = some dir) :
    path (XNode.group m d parent) =
      some (match g.path with
            | none => dir
            | some s => if s = "" then dir else pathJoin dir s) := by
  simp [path, hg, hp]

/-- C5 witness: under parent path `/ws`, the group with segment `Sources`
resolves to `/ws/Sources`, the virtual group (absent `path`) to `/ws`, and
the group with an empty-string `path` also to `/ws`. -/
theorem claim_C5_witness :
    path (XNode.group modelW ⟨"G1", "Sources"⟩ (.root "/ws")) = some "/ws/Sources" ∧
    path (XNode.group modelW ⟨"G2", "Main"⟩ (.root "/ws")) = some "/ws" ∧
    path (XNode.group modelW ⟨"G3", "Empty"⟩ (.root "/ws")) = some "/ws" := by
  refine ⟨?_, ?_, ?_⟩
  · rw [claim_C5 modelW ⟨"G1", "Sources"⟩ (.root "/ws") sourcesGroup "/ws" (by decide) rfl]
    decide
  · rw [claim_C5 modelW ⟨"G2", "Main"⟩ (.root "/ws") virtualGroup "/ws" (by decide) rfl]
    decide
  · rw [claim_C5 modelW ⟨"G3", "Empty"⟩ (.root "/ws") emptyPathGroup "/ws" (by decide) rfl]
    decide

/-- C6: on a readable directory, `RootNode.children()` yields exactly one
`ProjectNode` per entry whose name ends in `.xcodeproj`, in directory order,
and none for any other entry; with zero such entries the list is empty. -/
theorem claim_C6 (rootPath : String) (entries : List String) (N : Nat)
    (h : entries.countP matchesXcodeproj = N) :
    rootChildren rootPath (Except.ok entries) =
      Except.ok ((entries.filter matchesXcodeproj).map
        (fun f => XNode.project f (.root rootPath))) ∧
    (∀ l, rootChildren rootPath (Except.ok entries) = Except.ok l → l.length = N) := by
  refine ⟨rfl, fun l hl => ?_⟩
  have hl' : l = (entries.filter matchesXcodeproj).map (fun f => XNode.project f (.root rootPath)) :=
    (Except.ok.inj hl).symm
  subst hl'
  rw [List.length_map, ← h, List.countP_eq_length_filter]

/-- C6 witness: a directory with two `.xcodeproj` bundles among three
entries yields exactly the two project nodes. -/
theorem claim_C6_witness :
    ([XNode.project "App.xcodeproj" (.root "/ws"),
      XNode.project "Lib.xcodeproj" (.root "/ws")] : List XNode).length = 2 :=
  (claim_C6 "/ws" ["App.xcodeproj", "readme.md", "Lib.xcodeproj"] 2 (by decide)).2 _ rfl

/-- C7: a group child identifier present in none of the group section, the
file-reference section, or the build-file section (by `fileRef` match) is
omitted from the resolved child list (resolution of the remaining siblings
is unaffected) and hits the warning branch; no error is produced
(`groupChildNodes` is total). -/
theorem claim_C7 (m : ProjectModel) (self : XNode) (c : ChildRef)
    (pre post : List ChildRef)
    (hg : m.getPBXGroupByKey c.value = none)
    (hf : m.fileRef c.value = none)
    (hb : m.buildFiles.find? (fun kv => kv.2.fileRef == c.value) = none) :
    groupChildNodes m self (pre ++ c :: post) = groupChildNodes m self (pre ++ post) ∧
    c ∈ groupChildWarnings m self (pre ++ c :: post) := by
  have hnone : resolveChild m self c = none := by
    simp [resolveChild, hg, hf, hb]
  constructor
  · simp [groupChildNodes, List.filterMap_append, List.filterMap_cons, hnone]
  · simp [groupChildWarnings, List.mem_filter, hnone]

/-- C7 witness: the unknown identifier `ZZ` between two known siblings is
dropped and warned about, and the siblings still resolve. -/
theorem claim_C7_witness :
    groupChildNodes modelW (.root "/ws")
        [⟨"G1", "Sources"⟩, ⟨"ZZ", "ghost"⟩, ⟨"F2", "Info.plist"⟩] =
      groupChildNodes modelW (.root "/ws") [⟨"G1", "Sources"⟩, ⟨"F2", "Info.plist"⟩] ∧
    (⟨"ZZ", "ghost"⟩ : ChildRef) ∈ groupChildWarnings modelW (.root "/ws")
        [⟨"G1", "Sources"⟩, ⟨"ZZ", "ghost"⟩, ⟨"F2", "Info.plist"⟩] :=
  claim_C7 modelW (.root "/ws") ⟨"ZZ", "ghost"⟩ [⟨"G1", "Sources"⟩] [⟨"F2", "Info.plist"⟩]
    (by decide) (by decide) (by decide)

/-- C8: resolving the same group's children twice over an unchanged model
yields lists of equal length with pairwise identical labels and paths —
resolution is deterministic. -/
theorem claim_C8 (m : ProjectModel) (d : ChildRef) (parent : XNode) (l₁ l₂ : List XNode)
    (h₁ : groupChildren m d parent = some l₁) (h₂ : groupChildren m d parent = some l₂) :
    l₁.length = l₂.length ∧ l₁.map label = l₂.map label ∧ l₁.map path = l₂.map path := by
  rw [h₁] at h₂
  obtain rfl : l₁ = l₂ := Option.some.inj h₂
  exact ⟨rfl, rfl, rfl⟩

/-- C8 witness: two resolutions of the fixture group `G1` agree. -/
theorem claim_C8_witness :
    ([XNode.file modelW ⟨"F1", "main.swift"⟩
        (XNode.group modelW ⟨"G1", "Sources"⟩ (.root "/ws"))] : List XNode).length =
      ([XNode.file modelW ⟨"F1", "main.swift"⟩
        (XNode.group modelW ⟨"G1", "Sources"⟩ (.root "/ws"))] : List XNode).length :=
  (claim_C8 modelW ⟨"G1", "Sources"⟩ (.root "/ws") _ _ (by decide) (by decide)).1

/-- C9: with `sortAlphabetically` disabled, `resolveChildren` returns the
children in resolution order for either value of `directoriesFirst`; the
`directoriesFirst` flag has no effect unless sorting is enabled. -/
theorem claim_C9 (d₁ d₂ : Bool) (l : List XNode) :
    resolveChildren ⟨false, d₁⟩ l = l ∧
    resolveChildren ⟨false, d₁⟩ l = resolveChildren ⟨false, d₂⟩ l :=
  ⟨rfl, rfl⟩

/-- C10: `ProjectNode.path()` returns the root node's directory path
without appending the bundle name; `BuildFileNode.path()` joins the parent's
path with the record's `fileRef_comment` verbatim (no quote stripping); and
a `BuildFileNode` carries no click command. -/
theorem claim_C10 :
    (∀ (file rootPath : String),
      path (XNode.project file (.root rootPath)) = some rootPath) ∧
    (∀ (m : ProjectModel) (bf : BuildFileRecord) (parent : XNode),
      path (XNode.buildFile m bf parent) =
        (path parent).map (fun d => pathJoin d bf.fileRef_comment)) ∧
    (∀ (m : ProjectModel) (bf : BuildFileRecord) (parent : XNode),
      clickCommand (XNode.buildFile m bf parent) = none) := by
  refine ⟨fun _ _ => rfl, fun m bf parent => ?_, fun _ _ _ => rfl⟩
  cases h : path parent <;> simp [path, h]

/-- C3 as stated is false: it quantifies over every pair of configuration
flags with only `directoriesFirst = true` constrained, but `resolveChildren`
sorts only when `sortAlphabetically` is enabled — with
`sortAlphabetically = false` and `directoriesFirst = true`, a child list
with a `FileNode` before a `GroupNode` is returned unchanged, so
Group-variant children do not all precede File-variant children. -/
theorem claim_C3_counterexample :
    resolveChildren ⟨false, true⟩
        [XNode.file modelW ⟨"F2", "Info.plist"⟩ (.root "/ws"),
         XNode.group modelW ⟨"G1", "Sources"⟩ (.root "/ws")] =
      [XNode.file modelW ⟨"F2", "Info.plist"⟩ (.root "/ws"),
       XNode.group modelW ⟨"G1", "Sources"⟩ (.root "/ws")] ∧
    ¬ ([XNode.file modelW ⟨"F2", "Info.plist"⟩ (.root "/ws"),
        XNode.group modelW ⟨"G1", "Sources"⟩ (.root "/ws")] : List XNode).Pairwise
        (fun a b => isFileNode a = true → isGroupNode b = false) := by
  refine ⟨rfl, fun h => ?_⟩
  have := List.rel_of_pairwise_cons h (List.mem_cons_self _ _)
  simp [isFileNode, isGroupNode] at this

/-- C3 amended: when `sortAlphabetically` is true AND `directoriesFirst` is
true, the output of `resolveChildren` is a stable sort of the resolution
order (a permutation, preserving the relative order of equal-key siblings)
in which every Group-variant child precedes every File-variant child and,
within each variant bucket, children appear in case-sensitive lexicographic
(code-point) label order. -/
theorem claim_C3_amended (l : List XNode) :
    (resolveChildren ⟨true, true⟩ l).Perm l ∧
    (resolveChildren ⟨true, true⟩ l).Pairwise
      (fun a b => isFileNode a = true → isGroupNode b = false) ∧
    (resolveChildren ⟨true, true⟩ l).Pairwise
      (fun a b => isGroupNode a = true → isGroupNode b = true →
        charLE (label a).data (label b).data = true) ∧
    (resolveChildren ⟨true, true⟩ l).Pairwise
      (fun a b => isFileNode a = true → isFileNode b = true →
        charLE (label a).data (label b).data = true) ∧
    (∀ a b : XNode, sortKey ⟨true, true⟩ a = sortKey ⟨true, true⟩ b →
      [a, b].Sublist l → [a, b].Sublist (resolveChildren ⟨true, true⟩ l)) := by
  have htrans : ∀ a b c : XNode, keyLE ⟨true, true⟩ a b = true →
      keyLE ⟨true, true⟩ b c = true → keyLE ⟨true, true⟩ a c = true :=
    fun a b c h h' => charLE_trans _ _ _ h h'
  have htotal : ∀ a b : XNode, (keyLE ⟨true, true⟩ a b || keyLE ⟨true, true⟩ b a) = true := by
    intro a b
    rcases charLE_total (sortKey ⟨true, true⟩ a).data (sortKey ⟨true, true⟩ b).data with h | h <;>
      simp [keyLE, h]
  have hres : resolveChildren ⟨true, true⟩ l = l.mergeSort (keyLE ⟨true, true⟩) := rfl
  have hsorted : (l.mergeSort (keyLE ⟨true, true⟩)).Pairwise
      (fun a b => keyLE ⟨true, true⟩ a b = true) :=
    List.sorted_mergeSort htrans htotal l
  rw [hres]
  refine ⟨List.mergeSort_perm l _, ?_, ?_, ?_, ?_⟩
  · refine hsorted.imp (fun {a b} hab => ?_)
    intro ha
    by_contra hb
    have hbg : isGroupNode b = true := by
      cases hgb : isGroupNode b
      · exact absurd hgb hb
      · rfl
    have h1 : (sortKey ⟨true, true⟩ a).data = '0' :: '0' :: '1' :: '-' :: (label a).data :=
      sortKey_data_of_not_group _ a (isGroupNode_eq_false_of_isFileNode a ha)
    have h2 : (sortKey ⟨true, true⟩ b).data = '0' :: '0' :: '0' :: '-' :: (label b).data :=
      sortKey_data_of_group _ rfl b hbg
    have hc : charLE (sortKey ⟨true, true⟩ a).data (sortKey ⟨true, true⟩ b).data = true := hab
    rw [h1, h2, charLE_bucket] at hc
    exact Bool.noConfusion hc
  · refine hsorted.imp (fun {a b} hab => ?_)
    intro ha hb
    have h1 := sortKey_data_of_group (⟨true, true⟩ : Config) rfl a ha
    have h2 := sortKey_data_of_group (⟨true, true⟩ : Config) rfl b hb
    have hc : charLE (sortKey ⟨true, true⟩ a).data (sortKey ⟨true, true⟩ b).data = true := hab
    rw [h1, h2] at hc
    rw [← charLE_append_cancel ['0', '0', '0', '-'] (label a).data (label b).data]
    exact hc
  · refine hsorted.imp (fun {a b} hab => ?_)
    intro ha hb
    have h1 := sortKey_data_of_not_group (⟨true, true⟩ : Config) a
      (isGroupNode_eq_false_of_isFileNode a ha)
    have h2 := sortKey_data_of_not_group (⟨true, true⟩ : Config) b
      (isGroupNode_eq_false_of_isFileNode b hb)
    have hc : charLE (sortKey ⟨true, true⟩ a).data (sortKey ⟨true, true⟩ b).data = true := hab
    rw [h1, h2] at hc
    rw [← charLE_append_cancel ['0', '0', '1', '-'] (label a).data (label b).data]
    exact hc
  · intro a b hkey hsub
    have hab : keyLE ⟨true, true⟩ a b = true := by
      show charLE (sortKey ⟨true, true⟩ a).data (sortKey ⟨true, true⟩ b).data = true
      rw [hkey]
      exact charLE_refl _
    exact List.pair_sublist_mergeSort htrans htotal hab hsub

/-- C3 amended witness: two equal-key file nodes around a group node keep
their relative order in the sorted output. -/
theorem claim_C3_amended_witness :
    ([XNode.file modelW ⟨"F1", "main.swift"⟩ (.root "/ws"),
      XNode.file modelW ⟨"F2", "main.swift"⟩ (.root "/ws")] : List XNode).Sublist
      (resolveChildren ⟨true, true⟩
        [XNode.file modelW ⟨"F1", "main.swift"⟩ (.root "/ws"),
         XNode.group modelW ⟨"G1", "Sources"⟩ (.root "/ws"),
         XNode.file modelW ⟨"F2", "main.swift"⟩ (.root "/ws")]) :=
  (claim_C3_amended
      [XNode.file modelW ⟨"F1", "main.swift"⟩ (.root "/ws"),
       XNode.group modelW ⟨"G1", "Sources"⟩ (.root "/ws"),
       XNode.file modelW ⟨"F2", "main.swift"⟩ (.root "/ws")]).2.2.2.2
    (XNode.file modelW ⟨"F1", "main.swift"⟩ (.root "/ws"))
    (XNode.file modelW ⟨"F2", "main.swift"⟩ (.root "/ws"))
    rfl
    (List.Sublist.cons₂ _ (List.Sublist.cons _ (List.Sublist.cons₂ _ (List.nil_sublist _))))

end XcodeProject
